import Mathlib

/-
Verification development for the editing core of the xi-editor backend
(src/rust/src/editor.rs together with the rpc command types).

The editor code in src/rust/src/editor.rs is translated function by
function.  The rope, delta, revision engine and view live in crates of the
repository that are not part of the sources at hand; those collaborators
are modelled from the specification (spec.md sections 3, 4.1, 4.2 and 4.4)
and each such definition is marked `Modelled from the spec:` in its doc
comment.  Text is modelled as a list of Unicode scalar values and every
offset is a UTF-8 byte offset, exactly as in the rope contract.
-/

set_option linter.unusedVariables false

namespace XiCore

/-- Byte length of one character under UTF-8; all rope offsets are byte
offsets. -/
def charSize (c : Char) : Nat := c.utf8Size

/-- Modelled from the spec: Rope::len, the byte length of the text. -/
def ropeLen : List Char → Nat
  | [] => 0
  | c :: cs => charSize c + ropeLen cs

/-- Modelled from the spec: the slice of the text covering the half-open
byte interval from a to b (Rope::slice_to_string); a and b are codepoint
boundaries whenever the editor calls this. -/
def byteSlice : List Char → Nat → Nat → List Char
  | [], _, _ => []
  | c :: cs, a, b =>
    if b = 0 then []
    else if a = 0 then
      if charSize c ≤ b then c :: byteSlice cs 0 (b - charSize c) else []
    else byteSlice cs (a - charSize c) (b - charSize c)

/-- Modelled from the spec: Rope::slice_to_string. -/
def slice_to_string (r : List Char) (a b : Nat) : List Char := byteSlice r a b

/-- Codepoint boundaries of the text starting at byte position pos: pos
itself and the positions after each character. -/
def boundariesFrom : Nat → List Char → List Nat
  | pos, [] => [pos]
  | pos, c :: cs => pos :: boundariesFrom (pos + charSize c) cs

/-- All codepoint boundaries of the text (0, after the first character,
..., the total length). -/
def boundaries (r : List Char) : List Nat := boundariesFrom 0 r

/-- Last element of the list that is strictly below i, if any; on the
ascending boundary lists used here this is the greatest boundary below
i. -/
def prevBoundary : List Nat → Nat → Option Nat
  | [], _ => none
  | b :: bs, i =>
    if b < i then some ((prevBoundary bs i).getD b)
    else prevBoundary bs i

/-- First element of the list strictly above i, if any; on the ascending
boundary lists used here this is the least boundary above i. -/
def nextBoundary : List Nat → Nat → Option Nat
  | [], _ => none
  | b :: bs, i => if i < b then some b else nextBoundary bs i

/-- Modelled from the spec: Rope::prev_codepoint_offset, the greatest
codepoint boundary strictly before i, none at the start of the
document. -/
def prev_codepoint_offset (r : List Char) (i : Nat) : Option Nat :=
  prevBoundary (boundaries r) i

/-- Modelled from the spec: Rope::prev_grapheme_offset.  Grapheme
segmentation is provided by the rope crate, which is not among the sources;
the spec places Unicode segmentation beyond boundary queries out of scope,
so the model takes every scalar value as its own grapheme. -/
def prev_grapheme_offset (r : List Char) (i : Nat) : Option Nat :=
  prevBoundary (boundaries r) i

/-- Modelled from the spec: Rope::next_grapheme_offset, with the same
one-scalar-per-grapheme model as prev_grapheme_offset; none at the end of
the document. -/
def next_grapheme_offset (r : List Char) (i : Nat) : Option Nat :=
  nextBoundary (boundaries r) i

/-- Byte offsets sitting just after each newline character, in order;
these are the boundaries of the rope's LinesMetric. -/
def lineBreakGo : List Char → Nat → List Nat
  | [], _ => []
  | c :: cs, pos =>
    if c = '\n' then (pos + charSize c) :: lineBreakGo cs (pos + charSize c)
    else lineBreakGo cs (pos + charSize c)

/-- LinesMetric boundaries of the text. -/
def lineBreakOffsets (r : List Char) : List Nat := lineBreakGo r 0

/-- Modelled from the spec: Cursor::next over LinesMetric, as consumed by
cursor_end_offset; from position i it reaches the next line boundary, or
the end of the rope when no newline follows, and yields none when i is
already at or past the end. -/
def cursorNextLine (r : List Char) (i : Nat) : Option Nat :=
  if ropeLen r ≤ i then none
  else
    match nextBoundary (lineBreakOffsets r) i with
    | some b => some b
    | none => some (ropeLen r)

/-- Modelled from the spec: Cursor::is_boundary over LinesMetric -- true
exactly at positions just after a newline. -/
def isLineBoundary (r : List Char) (pos : Nat) : Prop := pos ∈ lineBreakOffsets r

instance (r : List Char) (pos : Nat) : Decidable (isLineBoundary r pos) := by
  unfold isLineBoundary; infer_instance

/-- Drop the first n bytes of the text. -/
def byteDrop : List Char → Nat → List Char
  | r, 0 => r
  | [], _ => []
  | c :: cs, n => byteDrop cs (n - charSize c)

/-- Byte offset of the first character of the given (0-based) line,
clamped to the end of the text. -/
def lineStartGo : List Char → Nat → Nat → Nat
  | [], _, pos => pos
  | c :: cs, line, pos =>
    if line = 0 then pos
    else if c = '\n' then lineStartGo cs (line - 1) (pos + charSize c)
    else lineStartGo cs line (pos + charSize c)

/-- Byte offset of the end of the line starting at the head of the list
(the next newline, or the end of the text). -/
def lineEndGo : List Char → Nat → Nat
  | [], pos => pos
  | c :: cs, pos => if c = '\n' then pos else lineEndGo cs (pos + charSize c)

/-- Modelled from the spec: View::line_col_to_offset -- the offset of the
requested column on the requested line, snapped to the nearest valid
column on that line. -/
def lineColToOffset (r : List Char) (line col : Nat) : Nat :=
  let s := lineStartGo r line 0
  min (s + col) (lineEndGo (byteDrop r s) s)

/-- Helper for offsetToLineCol: walk the text consuming off bytes while
tracking the line and byte column. -/
def offsetToLineColGo : List Char → Nat → Nat → Nat → Nat × Nat
  | [], _, line, col => (line, col)
  | c :: cs, off, line, col =>
    if off = 0 then (line, col)
    else if c = '\n' then offsetToLineColGo cs (off - charSize c) (line + 1) 0
    else offsetToLineColGo cs (off - charSize c) line (col + charSize c)

/-- Modelled from the spec: View::offset_to_line_col, mapping a byte
offset to its (line, byte column) pair. -/
def offsetToLineCol (r : List Char) (off : Nat) : Nat × Nat :=
  offsetToLineColGo r off 0 0

/-- Number of lines of the text (one more than the number of
newlines). -/
def numLines (r : List Char) : Nat := (lineBreakOffsets r).length + 1

/-- Half-open byte interval, as xi_rope::interval::Interval. -/
structure Interval where
  start : Nat
  stop : Nat
deriving DecidableEq, Repr

/-- Interval::new_closed_open. -/
def Interval.new_closed_open (a b : Nat) : Interval := ⟨a, b⟩

/-- Modelled from the spec: a Delta describes one edit against a base of
length base_len, replacing the interval from start to stop with the
inserted text (Delta::simple_edit builds exactly these). -/
structure Delta where
  start : Nat
  stop : Nat
  inserted : List Char
  base_len : Nat
deriving DecidableEq, Repr

/-- Delta::simple_edit(iv, new, base_len). -/
def Delta.simple_edit (iv : Interval) (new : List Char) (base_len : Nat) : Delta :=
  ⟨iv.start, iv.stop, new, base_len⟩

/-- Modelled from the spec: applying a delta replaces its interval with
the inserted text. -/
def applyDelta (d : Delta) (r : List Char) : List Char :=
  byteSlice r 0 d.start ++ d.inserted ++ byteSlice r d.stop (ropeLen r)

/-- Modelled from the spec: a Revision is an immutable record in the
engine's history carrying rev_id, priority, undo_group and the delta from
the previous head. -/
structure Revision where
  rev_id : Nat
  priority : Nat
  undo_group : Nat
  delta : Delta
deriving DecidableEq, Repr

/-- Modelled from the spec: engine state -- the base content, the ordered
history of revisions, the set of undone groups, and the next revision id
to allocate. -/
structure Engine where
  initial : List Char
  history : List Revision
  undone : List Nat
  next_rev_id : Nat
deriving DecidableEq, Repr

/-- Engine::new(initial): head is the initial content and the history is
empty. -/
def Engine.new (initial : List Char) : Engine := ⟨initial, [], [], 0⟩

/-- Modelled from the spec: the head text is the result of applying the
subsequence of the history whose groups are not undone, in order, from the
base content. -/
def Engine.head (e : Engine) : List Char :=
  e.history.foldl
    (fun t r => if r.undo_group ∈ e.undone then t else applyDelta r.delta t)
    e.initial

/-- Engine::get_head. -/
def Engine.get_head (e : Engine) : List Char := e.head

/-- Modelled from the spec: id of the most recent enabled revision. -/
def Engine.get_head_rev_id (e : Engine) : Nat :=
  ((e.history.filter (fun r => r.undo_group ∉ e.undone)).map Revision.rev_id).getLastD 0

/-- Modelled from the spec: edit_rev appends a new revision tagged with
priority and undo_group.  The single-writer core always passes the current
head as base_rev_id, so no rebasing occurs (spec section 9 allows a
minimal implementation to assert exactly this). -/
def Engine.edit_rev (e : Engine) (priority undo_group base_rev_id : Nat) (d : Delta) : Engine :=
  { e with
    history := e.history ++ [⟨e.next_rev_id, priority, undo_group, d⟩]
    next_rev_id := e.next_rev_id + 1 }

/-- Modelled from the spec: undo replaces the engine's set of undone
groups and the head is recomputed from it. -/
def Engine.undo (e : Engine) (groups : List Nat) : Engine :=
  { e with undone := groups }

/-- Modelled from the spec: gc permanently discards the revisions whose
undo group is among the given groups. -/
def Engine.gc (e : Engine) (groups : List Nat) : Engine :=
  { e with
    history := e.history.filter (fun r => r.undo_group ∉ groups)
    undone := e.undone.filter (fun g => g ∉ groups) }

/-- Modelled from the spec: the delta taking the previous exposed head to
the current one.  Its only consumers in the editor are the view's
break-cache maintenance hooks, whose internals the spec leaves free, so
the model records the trivial delta. -/
def Engine.delta_head (e : Engine) : Delta :=
  ⟨0, 0, [], ropeLen e.head⟩

/-- JSON values returned over the RPC boundary; render payloads are opaque
to the core (spec section 6), so one constructor stands for all of
them. -/
inductive Value where
  | null
  | vstr (s : List Char)
  | payload
deriving DecidableEq, Repr

/-- Modelled from the spec: the view state visible to the editor --
selection endpoints, the scroll viewport, the soft-wrap break cache and
the debug span flag.  The cache contents are internal to the view (spec
section 4.4: internal representation is free); the model tracks the reset
performed by reset_breaks and the wrap width requested by rewrap. -/
structure View where
  sel_start : Nat
  sel_end : Nat
  first_line : Nat
  last_line : Nat
  breaks : List Nat
  wrap_width : Option Nat
  test_fg_spans : Bool
deriving DecidableEq, Repr

/-- View::new. -/
def View.new : View := ⟨0, 0, 0, 0, [], none, false⟩

/-- View::sel_min. -/
def View.sel_min (v : View) : Nat := min v.sel_start v.sel_end

/-- View::sel_max. -/
def View.sel_max (v : View) : Nat := max v.sel_start v.sel_end

/-- Modelled from the spec: reset_breaks clears the soft-wrap cache. -/
def View.reset_breaks (v : View) : View := { v with breaks := [] }

/-- Modelled from the spec: set_scroll stores the viewport. -/
def View.set_scroll (v : View) (first last : Nat) : View :=
  { v with first_line := first, last_line := last }

/-- Modelled from the spec: scroll_height is the viewport height in
lines. -/
def View.scroll_height (v : View) : Nat := v.last_line - v.first_line

/-- Modelled from the spec: scroll_to_cursor adjusts the viewport so the
cursor is visible; the spec states no observable contract on the fields
the editor reads back, so the tracked fields are unchanged. -/
def View.scroll_to_cursor (v : View) (text : List Char) : View := v

/-- Modelled from the spec: before_edit updates the break cache
incrementally ahead of a committed delta; no tracked field changes. -/
def View.before_edit (v : View) (text : List Char) (d : Delta) : View := v

/-- Modelled from the spec: after_edit updates the break cache
incrementally after a committed delta; no tracked field changes. -/
def View.after_edit (v : View) (text : List Char) (d : Delta) : View := v

/-- Modelled from the spec: rewrap recomputes break positions for a new
wrap width. -/
def View.rewrap (v : View) (text : List Char) (width : Nat) : View :=
  { v with wrap_width := some width }

/-- View::set_test_fg_spans, a debug aid. -/
def View.set_test_fg_spans (v : View) : View := { v with test_fg_spans := true }

/-- Modelled from the spec: vertical_motion moves delta_lines lines from
sel_end keeping the preferred column, snapping to a valid column on the
target line and clamping at the document ends. -/
def View.vertical_motion (v : View) (r : List Char) (delta_lines : Int) (col : Nat) : Nat :=
  let line := (offsetToLineCol r v.sel_end).1
  let target : Int := (line : Int) + delta_lines
  if target < 0 then 0
  else if (numLines r : Int) ≤ target then ropeLen r
  else lineColToOffset r target.toNat col

/-- View::render produces an opaque payload (spec section 6). -/
def View.render (v : View) (text : List Char) (scroll_to : Option Nat) : Value :=
  Value.payload

/-- View::render_lines produces an opaque payload for a line range. -/
def View.render_lines (v : View) (text : List Char) (first_line last_line : Nat) : Value :=
  Value.payload

/-- FLAG_SELECT from editor.rs. -/
def FLAG_SELECT : Nat := 2

/-- MAX_UNDOS from editor.rs. -/
def MAX_UNDOS : Nat := 20

/-- EditType from editor.rs. -/
inductive EditType where
  | Other
  | Select
  | InsertChars
  | Delete
deriving DecidableEq, Repr

/-- EditMotion from the rpc crate (rpc/src/lib.rs). -/
inductive EditMotion where
  | PrevChar
  | NextChar
  | PrevLine
  | NextLine
  | StartOfLine
  | StartOfDocument
  | EndOfLine
  | EndOfDocument
deriving DecidableEq, Repr

/-- EditCommand from the rpc crate (rpc/src/lib.rs), with the field names
used by the editor's dispatch. -/
inductive EditCommand where
  | RenderLines (first_line last_line : Nat)
  | Key (chars : List Char) (flags : Nat)
  | Insert (chars : List Char)
  | InsertNewline
  | Delete (motion : EditMotion)
  | Move (motion : EditMotion) (modify_selection : Bool)
  | ScrollPageUp
  | PageUpAndModifySelection
  | ScrollPageDown
  | PageDownAndModifySelection
  | Open (file_path : String)
  | Save (file_path : String)
  | Scroll (first last : Int)
  | Yank
  | Transpose
  | Click (line column flags click_count : Nat)
  | Drag (line column flags : Nat)
  | Undo
  | Redo
  | Cut
  | Copy
  | DebugRewrap
  | DebugTestFgSpans
deriving DecidableEq, Repr

/-- Insert an element into a set represented as a duplicate-free list
(BTreeSet::insert). -/
def setInsert (x : Nat) (s : List Nat) : List Nat :=
  if x ∈ s then s else s ++ [x]

/-- Remove an element from a set represented as a list
(BTreeSet::remove). -/
def setRemove (x : Nat) (s : List Nat) : List Nat :=
  s.filter (fun y => y ≠ x)

/-- Union of two sets represented as lists (BTreeSet::extend). -/
def setUnionL (s t : List Nat) : List Nat :=
  t.foldl (fun acc x => setInsert x acc) s

/-- Difference of two sets represented as lists (the - operator on
BTreeSet references). -/
def setDiff (s t : List Nat) : List Nat :=
  s.filter (fun y => y ∉ t)

/-- The Editor struct of editor.rs, field for field.  The tabname is kept;
the undo bookkeeping sets are lists used only through membership. -/
structure Editor where
  tabname : String
  text : List Char
  view : View
  delta : Option Delta
  engine : Engine
  undo_group_id : Nat
  live_undos : List Nat
  cur_undo : Nat
  undos : List Nat
  gc_undos : List Nat
  this_edit_type : EditType
  last_edit_type : EditType
  new_cursor : Option Nat
  dirty : Bool
  scroll_to : Option Nat
  col : Nat
deriving DecidableEq, Repr

/-- Editor::new. -/
def Editor.new (tabname : String) : Editor where
  tabname := tabname
  text := []
  view := View.new
  dirty := false
  delta := none
  engine := Engine.new []
  undo_group_id := 0
  live_undos := []
  cur_undo := 0
  undos := []
  gc_undos := []
  last_edit_type := EditType.Other
  this_edit_type := EditType.Other
  new_cursor := none
  scroll_to := some 0
  col := 0

/-- Editor::add_delta: stage a delta unless one is already pending, in
which case the change is dropped with a warning. -/
def Editor.add_delta (e : Editor) (iv : Interval) (new : List Char) (new_cursor : Nat) : Editor :=
  if e.delta.isSome then e
  else
    { e with
      delta := some (Delta.simple_edit iv new (ropeLen e.text))
      new_cursor := some new_cursor }

/-- Editor::insert: replace the selection with s and put the cursor after
the inserted text. -/
def Editor.insert (e : Editor) (s : List Char) : Editor :=
  let sel_interval := Interval.new_closed_open e.view.sel_min e.view.sel_max
  let new_cursor := e.view.sel_min + ropeLen s
  e.add_delta sel_interval s new_cursor

/-- Editor::set_cursor. -/
def Editor.set_cursor (e : Editor) (offset : Nat) (hard : Bool) : Editor :=
  let v :=
    if e.this_edit_type ≠ EditType.Select then
      { e.view with sel_start := offset, sel_end := offset }
    else
      { e.view with sel_end := offset }
  let e1 := { e with view := v }
  let e2 :=
    if hard then
      { e1 with col := (offsetToLineCol e1.text offset).2, scroll_to := some offset }
    else e1
  { e2 with view := e2.view.scroll_to_cursor e2.text, dirty := true }

/-- Editor::update_after_revision. -/
def Editor.update_after_revision (e : Editor) : Editor :=
  let d := e.engine.delta_head
  let v := e.view.before_edit e.text d
  let text := e.engine.get_head
  let v2 := v.after_edit text d
  { e with view := v2, text := text, dirty := true }

/-- The undo-group decision inside Editor::commit_delta: reuse the top
live group when the edit type chains, otherwise allocate a fresh group,
discard the redo tail, push the group, advance cur_undo or evict the
oldest live group when over MAX_UNDOS, and bump the group counter.
Returns the updated editor and the chosen group. -/
def Editor.choose_undo_group (e0 : Editor) : Editor × Nat :=
  if e0.this_edit_type = e0.last_edit_type ∧ e0.this_edit_type ≠ EditType.Other ∧
      e0.this_edit_type ≠ EditType.Select ∧ e0.live_undos ≠ [] then
    (e0, e0.live_undos.getLastD 0)
  else
    let undo_group := e0.undo_group_id
    let e1 :=
      { e0 with
        gc_undos := setUnionL e0.gc_undos (e0.live_undos.drop e0.cur_undo)
        live_undos := e0.live_undos.take e0.cur_undo ++ [undo_group] }
    let e2 :=
      if e1.live_undos.length ≤ MAX_UNDOS then
        { e1 with cur_undo := e1.cur_undo + 1 }
      else
        { e1 with
          gc_undos := setInsert (e1.live_undos.headD 0) e1.gc_undos
          live_undos := e1.live_undos.tail }
    ({ e2 with undo_group_id := e2.undo_group_id + 1 }, undo_group)

/-- The body of Editor::commit_delta once the pending delta d has been
taken: choose the undo group, submit the revision at the head, refresh
from the engine and apply the staged cursor. -/
def Editor.commit_delta_inner (e0 : Editor) (d : Delta) : Editor :=
  let head_rev_id := e0.engine.get_head_rev_id
  let gud := e0.choose_undo_group
  let e3 := { gud.1 with engine := gud.1.engine.edit_rev 0x10000 gud.2 head_rev_id d }
  let e4 := e3.update_after_revision
  match e4.new_cursor with
  | some c => Editor.set_cursor { e4 with new_cursor := none } c true
  | none => e4

/-- Editor::commit_delta: take the pending delta if any and commit it. -/
def Editor.commit_delta (e : Editor) : Editor :=
  match e.delta with
  | none => e
  | some d => Editor.commit_delta_inner { e with delta := none } d

/-- Editor::update_undos: push the editor's undone-group set into the
engine and refresh from the new head. -/
def Editor.update_undos (e : Editor) : Editor :=
  Editor.update_after_revision { e with engine := e.engine.undo e.undos }

/-- Editor::gc_undos, the sweep at the end of every do_rpc (named
gc_sweep here because the Rust method shares its name with the field). -/
def Editor.gc_sweep (e : Editor) : Editor :=
  if e.gc_undos = [] then e
  else
    { e with
      engine := e.engine.gc e.gc_undos
      undos := setDiff e.undos e.gc_undos
      gc_undos := [] }

/-- Editor::reset_contents: replace the engine wholesale (discarding
history by design), refresh the text, reset the break cache and set the
cursor hard to offset 0. -/
def Editor.reset_contents (e : Editor) (new_contents : List Char) : Editor :=
  let engine := Engine.new new_contents
  let e1 :=
    { e with
      engine := engine
      text := engine.get_head
      dirty := true
      view := e.view.reset_breaks }
  e1.set_cursor 0 true

/-- Editor::render: flush the update notification when dirty (the
notification itself is an external effect). -/
def Editor.render (e : Editor) : Editor :=
  if e.dirty then { e with dirty := false, scroll_to := none } else e

/-- Editor::delete: with a live selection delete it; otherwise delete the
previous codepoint (complex emoji logic is a TODO in the source); stage
nothing when there is nothing before the cursor. -/
def Editor.delete (e : Editor) : Editor :=
  let start :=
    if e.view.sel_start ≠ e.view.sel_end then e.view.sel_min
    else
      match prev_codepoint_offset e.text e.view.sel_end with
      | some bsp_pos => bsp_pos
      | none => e.view.sel_max
  if start < e.view.sel_max then
    let e1 := { e with this_edit_type := EditType.Delete }
    e1.add_delta (Interval.new_closed_open start e1.view.sel_max) [] start
  else e

/-- Editor::delete_forward: with an empty selection move the cursor one
grapheme forward (returning early at the end of the document) and then
run delete. -/
def Editor.delete_forward (e : Editor) : Editor :=
  if e.view.sel_start = e.view.sel_end then
    match next_grapheme_offset e.text e.view.sel_end with
    | none => e
    | some pos => (e.set_cursor pos true).delete
  else e.delete

/-- Editor::delete_backward. -/
def Editor.delete_backward (e : Editor) : Editor := e.delete

/-- Editor::modify_selection. -/
def Editor.modify_selection (e : Editor) : Editor :=
  { e with this_edit_type := EditType.Select }

/-- Editor::insert_newline. -/
def Editor.insert_newline (e : Editor) : Editor :=
  Editor.insert { e with this_edit_type := EditType.InsertChars } ['\n']

/-- Editor::move_to_left_end_of_line. -/
def Editor.move_to_left_end_of_line (e : Editor) (flags : Nat) : Editor :=
  let e0 := if flags &&& FLAG_SELECT ≠ 0 then e.modify_selection else e
  let line_col := offsetToLineCol e0.text e0.view.sel_end
  let offset := lineColToOffset e0.text line_col.1 0
  e0.set_cursor offset true

/-- Editor::delete_to_beginning_of_line. -/
def Editor.delete_to_beginning_of_line (e : Editor) : Editor :=
  (e.move_to_left_end_of_line FLAG_SELECT).delete

/-- Editor::move_up. -/
def Editor.move_up (e : Editor) (flags : Nat) : Editor :=
  let e0 := if flags &&& FLAG_SELECT ≠ 0 then e.modify_selection else e
  let old_offset := e0.view.sel_end
  let offset := e0.view.vertical_motion e0.text (-1) e0.col
  let e1 := e0.set_cursor offset (old_offset == offset)
  { e1 with scroll_to := some offset }

/-- Editor::move_down. -/
def Editor.move_down (e : Editor) (flags : Nat) : Editor :=
  let e0 := if flags &&& FLAG_SELECT ≠ 0 then e.modify_selection else e
  let old_offset := e0.view.sel_end
  let offset := e0.view.vertical_motion e0.text 1 e0.col
  let e1 := e0.set_cursor offset (old_offset == offset)
  { e1 with scroll_to := some offset }

/-- Editor::move_left: a live selection collapses to its start unless
this is itself a selecting command; otherwise step one grapheme back,
resetting the sticky column at the document start. -/
def Editor.move_left (e : Editor) (flags : Nat) : Editor :=
  let e0 := if flags &&& FLAG_SELECT ≠ 0 then e.modify_selection else e
  if e0.view.sel_start ≠ e0.view.sel_end ∧ e0.this_edit_type ≠ EditType.Select then
    e0.set_cursor e0.view.sel_min true
  else
    match prev_grapheme_offset e0.text e0.view.sel_end with
    | some offset => e0.set_cursor offset true
    | none => { e0 with col := 0 }

/-- Editor::move_right. -/
def Editor.move_right (e : Editor) (flags : Nat) : Editor :=
  let e0 := if flags &&& FLAG_SELECT ≠ 0 then e.modify_selection else e
  if e0.view.sel_start ≠ e0.view.sel_end ∧ e0.this_edit_type ≠ EditType.Select then
    e0.set_cursor e0.view.sel_max true
  else
    match next_grapheme_offset e0.text e0.view.sel_end with
    | some offset => e0.set_cursor offset true
    | none => { e0 with col := (offsetToLineCol e0.text e0.view.sel_end).2 }

/-- Editor::move_to_right_end_of_line. -/
def Editor.move_to_right_end_of_line (e : Editor) (flags : Nat) : Editor :=
  let e0 := if flags &&& FLAG_SELECT ≠ 0 then e.modify_selection else e
  let line_col := offsetToLineCol e0.text e0.view.sel_end
  let offset := ropeLen e0.text
  let next_line_offset := lineColToOffset e0.text (line_col.1 + 1) 0
  let offset2 :=
    if next_line_offset < offset then
      match prev_grapheme_offset e0.text next_line_offset with
      | some prev => prev
      | none => offset
    else offset
  e0.set_cursor offset2 true

/-- Editor::cursor_end_offset: the end of the current line -- the
position before the next line break, or the end of the document. -/
def Editor.cursor_end_offset (e : Editor) : Nat :=
  let current := e.view.sel_max
  match cursorNextLine e.text current with
  | none => current
  | some offset =>
    if isLineBoundary e.text offset then
      match prev_grapheme_offset e.text offset with
      | some new => new
      | none => offset
    else offset

/-- Editor::move_to_beginning_of_document. -/
def Editor.move_to_beginning_of_document (e : Editor) (flags : Nat) : Editor :=
  let e0 := if flags &&& FLAG_SELECT ≠ 0 then e.modify_selection else e
  e0.set_cursor 0 true

/-- Editor::move_to_end_of_document. -/
def Editor.move_to_end_of_document (e : Editor) (flags : Nat) : Editor :=
  let e0 := if flags &&& FLAG_SELECT ≠ 0 then e.modify_selection else e
  e0.set_cursor (ropeLen e0.text) true

/-- Editor::scroll_page_up. -/
def Editor.scroll_page_up (e : Editor) (flags : Nat) : Editor :=
  let e0 := if flags &&& FLAG_SELECT ≠ 0 then e.modify_selection else e
  let scroll : Int := -(max ((e0.view.scroll_height : Int) - 2) 1)
  let old_offset := e0.view.sel_end
  let offset := e0.view.vertical_motion e0.text scroll e0.col
  let e1 := e0.set_cursor offset (old_offset == offset)
  let scroll_offset := e1.view.vertical_motion e1.text scroll e1.col
  { e1 with scroll_to := some scroll_offset }

/-- Editor::scroll_page_down. -/
def Editor.scroll_page_down (e : Editor) (flags : Nat) : Editor :=
  let e0 := if flags &&& FLAG_SELECT ≠ 0 then e.modify_selection else e
  let scroll : Int := max ((e0.view.scroll_height : Int) - 2) 1
  let old_offset := e0.view.sel_end
  let offset := e0.view.vertical_motion e0.text scroll e0.col
  let e1 := e0.set_cursor offset (old_offset == offset)
  let scroll_offset := e1.view.vertical_motion e1.text scroll e1.col
  { e1 with scroll_to := some scroll_offset }

/-- Editor::debug_rewrap. -/
def Editor.debug_rewrap (e : Editor) : Editor :=
  { e with view := e.view.rewrap e.text 72, dirty := true }

/-- Editor::debug_test_fg_spans. -/
def Editor.debug_test_fg_spans (e : Editor) : Editor :=
  { e with view := e.view.set_test_fg_spans, dirty := true }

/-- Editor::do_key: the special key characters of editor.rs; anything
else is a literal insert (which, unlike do_insert, does not set an edit
type). -/
def Editor.do_key (e : Editor) (chars : List Char) (flags : Nat) : Editor :=
  if chars = ['\r'] then e.insert_newline
  else if chars = ['\x7f'] then e.delete_backward
  else if chars = [Char.ofNat 0xF700] then e.move_up flags
  else if chars = [Char.ofNat 0xF701] then e.move_down flags
  else if chars = [Char.ofNat 0xF702] then e.move_left flags
  else if chars = [Char.ofNat 0xF703] then e.move_right flags
  else if chars = [Char.ofNat 0xF72C] then e.scroll_page_up flags
  else if chars = [Char.ofNat 0xF72D] then e.scroll_page_down flags
  else if chars = [Char.ofNat 0xF704] then e.debug_rewrap
  else if chars = [Char.ofNat 0xF705] then e.debug_test_fg_spans
  else e.insert chars

/-- Editor::do_insert: sets the InsertChars edit type and inserts. -/
def Editor.do_insert (e : Editor) (chars : List Char) : Editor :=
  Editor.insert { e with this_edit_type := EditType.InsertChars } chars

/-- Editor::do_open.  File::open and read_to_string are process
facilities outside the sources; the fs oracle yields the file content on a
successful open and read, and none when either step fails, in which case
the code only logs. -/
def Editor.do_open (e : Editor) (file_path : String) (fs : String → Option (List Char)) : Editor :=
  match fs file_path with
  | some s => e.reset_contents s
  | none => e

/-- Editor::do_save streams the text out to the file; the editor state is
untouched whether or not the writes succeed. -/
def Editor.do_save (e : Editor) (file_path : String) : Editor := e

/-- Conversion of an i64 to usize with the wrap-around of the as
operator; used by do_scroll for its second argument. -/
def usize_of_i64 (x : Int) : Nat := (x % (2 ^ 64 : Int)).toNat

/-- Editor::do_scroll. -/
def Editor.do_scroll (e : Editor) (first last : Int) : Editor :=
  { e with view := e.view.set_scroll (max first 0).toNat (usize_of_i64 last) }

/-- Editor::do_click (click_count is ignored by the source). -/
def Editor.do_click (e : Editor) (line col flags click_count : Nat) : Editor :=
  let offset := lineColToOffset e.text line col
  let e0 := if flags &&& FLAG_SELECT ≠ 0 then e.modify_selection else e
  e0.set_cursor offset true

/-- Editor::do_drag. -/
def Editor.do_drag (e : Editor) (line col flags : Nat) : Editor :=
  let offset := lineColToOffset e.text line col
  (e.modify_selection).set_cursor offset true

/-- Editor::do_render_lines: keeps the undo group unbroken by copying the
last edit type, and returns the render payload. -/
def Editor.do_render_lines (e : Editor) (first_line last_line : Nat) : Editor × Value :=
  let e0 := { e with this_edit_type := e.last_edit_type }
  (e0, e0.view.render_lines e0.text first_line last_line)

/-- Editor::do_cut: with a non-empty selection stage its deletion and
return the selected text of the still-unedited rope; otherwise return
null. -/
def Editor.do_cut (e : Editor) : Editor × Value :=
  let mn := e.view.sel_min
  if mn ≠ e.view.sel_max then
    let e1 := e.add_delta (Interval.new_closed_open mn e.view.sel_max) [] mn
    (e1, Value.vstr (slice_to_string e.text mn e.view.sel_max))
  else (e, Value.null)

/-- Editor::do_copy. -/
def Editor.do_copy (e : Editor) : Editor × Value :=
  if e.view.sel_start ≠ e.view.sel_end then
    (e, Value.vstr (slice_to_string e.text e.view.sel_min e.view.sel_max))
  else (e, Value.null)

/-- Editor::do_undo: when a live group is applied, step cur_undo back,
add that group to the undone set and flush it into the engine. -/
def Editor.do_undo (e : Editor) : Editor :=
  if 0 < e.cur_undo then
    let cur := e.cur_undo - 1
    Editor.update_undos
      { e with
        cur_undo := cur
        undos := setInsert (e.live_undos.getD cur 0) e.undos }
  else e

/-- Editor::do_redo. -/
def Editor.do_redo (e : Editor) : Editor :=
  if e.cur_undo < e.live_undos.length then
    Editor.update_undos
      { e with
        undos := setRemove (e.live_undos.getD e.cur_undo 0) e.undos
        cur_undo := e.cur_undo + 1 }
  else e

/-- Editor::do_transpose. -/
def Editor.do_transpose (e : Editor) : Editor :=
  let end_opt := next_grapheme_offset e.text e.view.sel_end
  let start_opt := prev_grapheme_offset e.text e.view.sel_end
  let endPos := end_opt.getD e.view.sel_end
  let sm : Nat × Nat :=
    if end_opt = none ∧ start_opt.isSome then
      let middle := start_opt.getD 0
      let start := (prev_grapheme_offset e.text middle).getD middle
      (start, middle)
    else (start_opt.getD e.view.sel_end, e.view.sel_end)
  let swapped := slice_to_string e.text sm.2 endPos ++ slice_to_string e.text sm.1 sm.2
  e.add_delta (Interval.new_closed_open sm.1 endPos) swapped endPos

/-- Editor::delete_to_end_of_paragraph: delete to the end of line (or the
following grapheme when already there) and replace the shared kill ring
with whatever was deleted.  Returns the editor and the new kill ring. -/
def Editor.delete_to_end_of_paragraph (e : Editor) (kill_ring : List Char) :
    Editor × List Char :=
  let current := e.view.sel_max
  let offset := e.cursor_end_offset
  if current ≠ offset then
    let val := slice_to_string e.text current offset
    (e.add_delta (Interval.new_closed_open current offset) [] current, val)
  else
    match next_grapheme_offset e.text e.view.sel_end with
    | some grapheme_offset =>
      let val := slice_to_string e.text current grapheme_offset
      (e.add_delta (Interval.new_closed_open current grapheme_offset) [] current, val)
    | none => (e, [])

/-- Editor::yank: insert the kill ring contents. -/
def Editor.yank (e : Editor) (kill_ring : List Char) : Editor :=
  e.insert kill_ring

/-- Editor::do_move. -/
def Editor.do_move (e : Editor) (motion : EditMotion) (modify_selection : Bool) : Editor :=
  let flags := if modify_selection then FLAG_SELECT else 0
  match motion with
  | .PrevChar => e.move_left flags
  | .NextChar => e.move_right flags
  | .PrevLine => e.move_up flags
  | .NextLine => e.move_down flags
  | .StartOfLine => e.move_to_left_end_of_line flags
  | .StartOfDocument => e.move_to_beginning_of_document flags
  | .EndOfLine => e.move_to_right_end_of_line flags
  | .EndOfDocument => e.move_to_end_of_document flags

/-- Editor::do_delete.  The motions marked unimplemented! in the source
abort the process; the model returns none for them, so no post-state
exists. -/
def Editor.do_delete (e : Editor) (motion : EditMotion) : Option Editor :=
  match motion with
  | .PrevChar => some e.delete_backward
  | .NextChar => some e.delete_forward
  | .StartOfLine => some e.delete_to_beginning_of_line
  | _ => none

/-- The commit-render-bookkeeping-gc epilogue run at the end of every
do_rpc. -/
def Editor.rpc_epilogue (e : Editor) : Editor :=
  let e1 := e.commit_delta
  let e2 := e1.render
  let e3 := { e2 with last_edit_type := e2.this_edit_type }
  e3.gc_sweep

/-- Editor::do_rpc: reset the edit type, dispatch the command, then
commit, render, record the edit type and sweep the gc set.  The kill ring
is the process-wide rope (single-threaded, so the mutex is immaterial);
fs is the filesystem oracle for open.  none models an aborting command
(the unimplemented! deletion motions). -/
def Editor.do_rpc (e : Editor) (cmd : EditCommand) (kill_ring : List Char)
    (fs : String → Option (List Char)) : Option (Editor × List Char × Option Value) :=
  let e0 := { e with this_edit_type := EditType.Other }
  let step : Option (Editor × List Char × Option Value) :=
    match cmd with
    | .RenderLines first_line last_line =>
      let p := e0.do_render_lines first_line last_line
      some (p.1, kill_ring, some p.2)
    | .Key chars flags => some (e0.do_key chars flags, kill_ring, none)
    | .Insert chars => some (e0.do_insert chars, kill_ring, none)
    | .InsertNewline => some (e0.insert_newline, kill_ring, none)
    | .Move motion modify_selection =>
      some (e0.do_move motion modify_selection, kill_ring, none)
    | .Delete motion =>
      match e0.do_delete motion with
      | some e1 => some (e1, kill_ring, none)
      | none => none
    | .ScrollPageUp => some (e0.scroll_page_up 0, kill_ring, none)
    | .PageUpAndModifySelection => some (e0.scroll_page_up FLAG_SELECT, kill_ring, none)
    | .ScrollPageDown => some (e0.scroll_page_down 0, kill_ring, none)
    | .PageDownAndModifySelection => some (e0.scroll_page_down FLAG_SELECT, kill_ring, none)
    | .Open file_path => some (e0.do_open file_path fs, kill_ring, none)
    | .Save file_path => some (e0.do_save file_path, kill_ring, none)
    | .Scroll first last => some (e0.do_scroll first last, kill_ring, none)
    | .Yank => some (e0.yank kill_ring, kill_ring, none)
    | .Transpose => some (e0.do_transpose, kill_ring, none)
    | .Click line column flags click_count =>
      some (e0.do_click line column flags click_count, kill_ring, none)
    | .Drag line column flags => some (e0.do_drag line column flags, kill_ring, none)
    | .Undo => some (e0.do_undo, kill_ring, none)
    | .Redo => some (e0.do_redo, kill_ring, none)
    | .Cut =>
      let p := e0.do_cut
      some (p.1, kill_ring, some p.2)
    | .Copy =>
      let p := e0.do_copy
      some (p.1, kill_ring, some p.2)
    | .DebugRewrap => some (e0.debug_rewrap, kill_ring, none)
    | .DebugTestFgSpans => some (e0.debug_test_fg_spans, kill_ring, none)
  match step with
  | none => none
  | some (e1, kr, result) => some (e1.rpc_epilogue, kr, result)

/-- A filesystem oracle on which every open fails. -/
def noFile : String → Option (List Char) := fun _ => none

/-- One do_rpc worth of input: the command, the kill ring contents it
observes, and the filesystem outcome for an open. -/
structure RpcInput where
  cmd : EditCommand
  kill_ring : List Char
  fs : String → Option (List Char)

/-- Run a sequence of do_rpc calls, failing if any command aborts. -/
def run_rpcs : Editor → List RpcInput → Option Editor
  | e, [] => some e
  | e, i :: is =>
    match e.do_rpc i.cmd i.kill_ring i.fs with
    | none => none
    | some (e1, _, _) => run_rpcs e1 is

/-- Run a list of commands with a fixed kill ring and filesystem oracle,
threading the kill ring, failing if any command aborts. -/
def run_cmds : Editor → List Char → (String → Option (List Char)) → List EditCommand →
    Option (Editor × List Char)
  | e, kr, _, [] => some (e, kr)
  | e, kr, fs, c :: cs =>
    match e.do_rpc c kr fs with
    | none => none
    | some (e1, kr1, _) => run_cmds e1 kr1 fs cs

/-- Text, cur_undo and live-undo count of a run result, the observables
of the undo scenarios. -/
def undoObs (p : Editor × List Char) : List Char × Nat × Nat :=
  (p.1.text, p.1.cur_undo, p.1.live_undos.length)

/-- The editor component of a do_rpc result. -/
def rpcEditorOf : Option (Editor × List Char × Option Value) → Option Editor
  | none => none
  | some p => some p.1

/-- The response value of a do_rpc result. -/
def rpcResultOf : Option (Editor × List Char × Option Value) → Option (Option Value)
  | none => none
  | some p => some p.2.2

/-- The text of the editor after a do_rpc. -/
def rpcTextOf : Option (Editor × List Char × Option Value) → Option (List Char)
  | none => none
  | some p => some p.1.text

/-- Selection endpoints of an editor. -/
def editorSel (e : Editor) : Nat × Nat := (e.view.sel_start, e.view.sel_end)

/-- Modelled from the spec, for comparison with do_transpose: swap the
graphemes on either side of sel_end; at the end of the document swap the
two preceding graphemes instead; the delta covers start to end with
content slice(middle, end) + slice(start, middle) and the cursor goes to
end. -/
def transposeSpec (text : List Char) (sel_end : Nat) : Delta × Nat :=
  match next_grapheme_offset text sel_end with
  | some nxt =>
    let start := (prev_grapheme_offset text sel_end).getD sel_end
    (Delta.simple_edit (Interval.new_closed_open start nxt)
      (slice_to_string text sel_end nxt ++ slice_to_string text start sel_end)
      (ropeLen text), nxt)
  | none =>
    match prev_grapheme_offset text sel_end with
    | some middle =>
      let start := (prev_grapheme_offset text middle).getD middle
      (Delta.simple_edit (Interval.new_closed_open start sel_end)
        (slice_to_string text middle sel_end ++ slice_to_string text start middle)
        (ropeLen text), sel_end)
    | none =>
      (Delta.simple_edit (Interval.new_closed_open sel_end sel_end)
        (slice_to_string text sel_end sel_end ++ slice_to_string text sel_end sel_end)
        (ropeLen text), sel_end)

/-- The undo bookkeeping invariant of spec section 8.2. -/
def EditorInv (e : Editor) : Prop :=
  e.cur_undo ≤ e.live_undos.length ∧ e.live_undos.length ≤ MAX_UNDOS

instance (e : Editor) : Decidable (EditorInv e) := by
  unfold EditorInv; infer_instance

/-- The undo bookkeeping fields touched by the invariant. -/
def undoPair (e : Editor) : Nat × List Nat := (e.cur_undo, e.live_undos)

/-- A fresh editor holding the given document with the cursor at the
given offset, as used by the concrete scenarios. -/
def docEditor (text : List Char) (sel : Nat) : Editor :=
  { Editor.new ("0") with
    text := text
    engine := Engine.new text
    view := { View.new with sel_start := sel, sel_end := sel } }

/-- The key-then-undo command sequence of the coalescing scenario. -/
def keyUndoCmds : List EditCommand :=
  [.Key ['a'] 0, .Key ['b'] 0, .Key ['c'] 0, .Undo]

/-- The insert-then-undo command sequence that does set InsertChars. -/
def insertUndoCmds : List EditCommand :=
  [.Insert ['a'], .Insert ['b'], .Insert ['c'], .Undo]

/-- Concrete editor for the undo/redo bookkeeping witness: one applied
live group. -/
def undoWitnessEditor : Editor :=
  { docEditor ['a'] 1 with
    live_undos := [0]
    cur_undo := 1
    engine :=
      { initial := []
        history := [⟨0, 0x10000, 0, ⟨0, 0, ['a'], 0⟩⟩]
        undone := []
        next_rev_id := 1 } }

/-! Helper lemmas about the boundary queries. -/

theorem prevBoundary_lt (bs : List Nat) (i p : Nat) (h : prevBoundary bs i = some p) :
    p < i := by
  induction bs with
  | nil => simp [prevBoundary] at h
  | cons b bs ih =>
    unfold prevBoundary at h
    by_cases hb : b < i
    · rw [if_pos hb] at h
      cases heq : prevBoundary bs i with
      | none => rw [heq] at h; simp at h; omega
      | some q => rw [heq] at h; simp at h; subst h; exact ih heq
    · rw [if_neg hb] at h; exact ih h

theorem prevBoundary_zero (bs : List Nat) : prevBoundary bs 0 = none := by
  induction bs with
  | nil => rfl
  | cons b bs ih => unfold prevBoundary; simp [ih]

theorem prev_codepoint_offset_zero (r : List Char) : prev_codepoint_offset r 0 = none :=
  prevBoundary_zero _

theorem nextBoundary_none_of_le (bs : List Nat) (i : Nat) (h : ∀ b ∈ bs, b ≤ i) :
    nextBoundary bs i = none := by
  induction bs with
  | nil => rfl
  | cons b bs ih =>
    unfold nextBoundary
    have hb := h b (List.mem_cons_self b bs)
    rw [if_neg (by omega)]
    exact ih (fun x hx => h x (List.mem_cons_of_mem b hx))

theorem boundariesFrom_le (r : List Char) :
    ∀ pos, ∀ b ∈ boundariesFrom pos r, b ≤ pos + ropeLen r := by
  induction r with
  | nil => intro pos b hb; simp [boundariesFrom] at hb; simp [hb, ropeLen]
  | cons c cs ih =>
    intro pos b hb
    simp only [boundariesFrom, List.mem_cons] at hb
    rcases hb with h | h
    · subst h; simp only [ropeLen]; omega
    · have := ih (pos + charSize c) b h
      simp only [ropeLen]; omega

theorem next_grapheme_offset_ropeLen (r : List Char) :
    next_grapheme_offset r (ropeLen r) = none := by
  apply nextBoundary_none_of_le
  intro b hb
  have := boundariesFrom_le r 0 b hb
  omega

theorem byteSlice_same (r : List Char) (a : Nat) : byteSlice r a a = [] := by
  induction r generalizing a with
  | nil => rfl
  | cons c cs ih =>
    unfold byteSlice
    by_cases h : a = 0
    · simp [h]
    · rw [if_neg h, if_neg h]; exact ih _

/-! Projection lemmas: the handlers that leave the undo bookkeeping
untouched. -/

theorem undoPair_set_cursor (e : Editor) (o : Nat) (hd : Bool) :
    undoPair (e.set_cursor o hd) = undoPair e := by
  simp only [Editor.set_cursor, View.scroll_to_cursor]
  split <;> split <;> rfl

theorem undoPair_add_delta (e : Editor) (iv : Interval) (new : List Char) (nc : Nat) :
    undoPair (e.add_delta iv new nc) = undoPair e := by
  simp only [Editor.add_delta]
  split <;> rfl

theorem undoPair_insert (e : Editor) (s : List Char) :
    undoPair (e.insert s) = undoPair e := by
  simp only [Editor.insert]; exact undoPair_add_delta ..

theorem undoPair_update_after_revision (e : Editor) :
    undoPair e.update_after_revision = undoPair e := rfl

theorem undoPair_update_undos (e : Editor) :
    undoPair e.update_undos = undoPair e := rfl

theorem undoPair_render (e : Editor) : undoPair e.render = undoPair e := by
  simp only [Editor.render]; split <;> rfl

theorem undoPair_gc_sweep (e : Editor) : undoPair e.gc_sweep = undoPair e := by
  simp only [Editor.gc_sweep]; split <;> rfl

theorem undoPair_reset_contents (e : Editor) (s : List Char) :
    undoPair (e.reset_contents s) = undoPair e := by
  simp only [Editor.reset_contents]
  rw [undoPair_set_cursor]
  rfl

theorem undoPair_delete (e : Editor) : undoPair e.delete = undoPair e := by
  simp only [Editor.delete]
  split <;> split <;> first | rfl | exact undoPair_add_delta ..

theorem undoPair_delete_forward (e : Editor) :
    undoPair e.delete_forward = undoPair e := by
  simp only [Editor.delete_forward]
  split
  · split
    · rfl
    · rw [undoPair_delete, undoPair_set_cursor]
  · exact undoPair_delete e

theorem undoPair_delete_backward (e : Editor) :
    undoPair e.delete_backward = undoPair e := undoPair_delete e

theorem undoPair_modify_selection (e : Editor) :
    undoPair e.modify_selection = undoPair e := rfl

theorem undoPair_insert_newline (e : Editor) :
    undoPair e.insert_newline = undoPair e := by
  simp only [Editor.insert_newline]
  exact undoPair_insert ..

theorem undoPair_move_to_left_end_of_line (e : Editor) (flags : Nat) :
    undoPair (e.move_to_left_end_of_line flags) = undoPair e := by
  simp only [Editor.move_to_left_end_of_line]
  split <;> rw [undoPair_set_cursor] <;> rfl

theorem undoPair_delete_to_beginning_of_line (e : Editor) :
    undoPair e.delete_to_beginning_of_line = undoPair e := by
  simp only [Editor.delete_to_beginning_of_line]
  rw [undoPair_delete, undoPair_move_to_left_end_of_line]

theorem undoPair_move_up (e : Editor) (flags : Nat) :
    undoPair (e.move_up flags) = undoPair e := by
  simp only [Editor.move_up]
  split <;> rw [show ∀ x : Editor, ∀ o : Option Nat,
    undoPair { x with scroll_to := o } = undoPair x from fun _ _ => rfl,
    undoPair_set_cursor] <;> rfl

theorem undoPair_move_down (e : Editor) (flags : Nat) :
    undoPair (e.move_down flags) = undoPair e := by
  simp only [Editor.move_down]
  split <;> rw [show ∀ x : Editor, ∀ o : Option Nat,
    undoPair { x with scroll_to := o } = undoPair x from fun _ _ => rfl,
    undoPair_set_cursor] <;> rfl

theorem undoPair_move_left (e : Editor) (flags : Nat) :
    undoPair (e.move_left flags) = undoPair e := by
  simp only [Editor.move_left]
  split <;> split <;>
    first
      | (rw [undoPair_set_cursor]; rfl)
      | rfl
      | (split <;> first | (rw [undoPair_set_cursor]; rfl) | rfl)

theorem undoPair_move_right (e : Editor) (flags : Nat) :
    undoPair (e.move_right flags) = undoPair e := by
  simp only [Editor.move_right]
  split <;> split <;>
    first
      | (rw [undoPair_set_cursor]; rfl)
      | rfl
      | (split <;> first | (rw [undoPair_set_cursor]; rfl) | rfl)

theorem undoPair_move_to_right_end_of_line (e : Editor) (flags : Nat) :
    undoPair (e.move_to_right_end_of_line flags) = undoPair e := by
  simp only [Editor.move_to_right_end_of_line]
  split <;> rw [undoPair_set_cursor] <;> rfl

theorem undoPair_move_to_beginning_of_document (e : Editor) (flags : Nat) :
    undoPair (e.move_to_beginning_of_document flags) = undoPair e := by
  simp only [Editor.move_to_beginning_of_document]
  split <;> rw [undoPair_set_cursor] <;> rfl

theorem undoPair_move_to_end_of_document (e : Editor) (flags : Nat) :
    undoPair (e.move_to_end_of_document flags) = undoPair e := by
  simp only [Editor.move_to_end_of_document]
  split <;> rw [undoPair_set_cursor] <;> rfl

theorem undoPair_scroll_page_up (e : Editor) (flags : Nat) :
    undoPair (e.scroll_page_up flags) = undoPair e := by
  simp only [Editor.scroll_page_up]
  split <;> rw [show ∀ x : Editor, ∀ o : Option Nat,
    undoPair { x with scroll_to := o } = undoPair x from fun _ _ => rfl,
    undoPair_set_cursor] <;> rfl

theorem undoPair_scroll_page_down (e : Editor) (flags : Nat) :
    undoPair (e.scroll_page_down flags) = undoPair e := by
  simp only [Editor.scroll_page_down]
  split <;> rw [show ∀ x : Editor, ∀ o : Option Nat,
    undoPair { x with scroll_to := o } = undoPair x from fun _ _ => rfl,
    undoPair_set_cursor] <;> rfl

theorem undoPair_do_key (e : Editor) (chars : List Char) (flags : Nat) :
    undoPair (e.do_key chars flags) = undoPair e := by
  simp only [Editor.do_key]
  split
  · exact undoPair_insert_newline e
  split
  · exact undoPair_delete_backward e
  split
  · exact undoPair_move_up ..
  split
  · exact undoPair_move_down ..
  split
  · exact undoPair_move_left ..
  split
  · exact undoPair_move_right ..
  split
  · exact undoPair_scroll_page_up ..
  split
  · exact undoPair_scroll_page_down ..
  split
  · rfl
  split
  · rfl
  exact undoPair_insert ..

theorem undoPair_do_insert (e : Editor) (chars : List Char) :
    undoPair (e.do_insert chars) = undoPair e := by
  simp only [Editor.do_insert]
  exact undoPair_insert ..

theorem undoPair_do_open (e : Editor) (p : String) (fs : String → Option (List Char)) :
    undoPair (e.do_open p fs) = undoPair e := by
  simp only [Editor.do_open]
  split
  · exact undoPair_reset_contents ..
  · rfl

theorem undoPair_do_click (e : Editor) (line col flags cc : Nat) :
    undoPair (e.do_click line col flags cc) = undoPair e := by
  simp only [Editor.do_click]
  split <;> rw [undoPair_set_cursor] <;> rfl

theorem undoPair_do_drag (e : Editor) (line col flags : Nat) :
    undoPair (e.do_drag line col flags) = undoPair e := by
  simp only [Editor.do_drag]
  rw [undoPair_set_cursor]
  rfl

theorem undoPair_do_cut (e : Editor) : undoPair (e.do_cut).1 = undoPair e := by
  simp only [Editor.do_cut]
  split
  · exact undoPair_add_delta ..
  · rfl

theorem undoPair_do_copy (e : Editor) : undoPair (e.do_copy).1 = undoPair e := by
  simp only [Editor.do_copy]
  split <;> rfl

theorem undoPair_do_transpose (e : Editor) :
    undoPair e.do_transpose = undoPair e := by
  simp only [Editor.do_transpose]
  exact undoPair_add_delta ..

theorem undoPair_yank (e : Editor) (kr : List Char) :
    undoPair (e.yank kr) = undoPair e := undoPair_insert ..

theorem undoPair_do_move (e : Editor) (motion : EditMotion) (ms : Bool) :
    undoPair (e.do_move motion ms) = undoPair e := by
  cases motion <;>
    simp only [Editor.do_move] <;>
    first
      | exact undoPair_move_left ..
      | exact undoPair_move_right ..
      | exact undoPair_move_up ..
      | exact undoPair_move_down ..
      | exact undoPair_move_to_left_end_of_line ..
      | exact undoPair_move_to_beginning_of_document ..
      | exact undoPair_move_to_right_end_of_line ..
      | exact undoPair_move_to_end_of_document ..

theorem undoPair_do_delete (e e1 : Editor) (motion : EditMotion)
    (h : e.do_delete motion = some e1) : undoPair e1 = undoPair e := by
  cases motion <;> simp only [Editor.do_delete] at h <;>
    first
      | (injection h with h1; subst h1;
         first
           | exact undoPair_delete_backward e
           | exact undoPair_delete_forward e
           | exact undoPair_delete_to_beginning_of_line e)
      | exact absurd h (by simp)

/-! Invariant preservation lemmas for claim C4. -/

theorem EditorInv_of_undoPair {e' e : Editor} (h : undoPair e' = undoPair e)
    (hi : EditorInv e) : EditorInv e' := by
  unfold EditorInv at *
  have h1 : e'.cur_undo = e.cur_undo := congrArg Prod.fst h
  have h2 : e'.live_undos = e.live_undos := congrArg Prod.snd h
  rw [h1, h2]
  exact hi

theorem EditorInv_choose_undo_group (e0 : Editor) (h : EditorInv e0) :
    EditorInv (e0.choose_undo_group).1 := by
  obtain ⟨hn, hL⟩ := h
  unfold Editor.choose_undo_group
  split
  · exact ⟨hn, hL⟩
  · simp only []
    split <;>
      (rename_i hc
       unfold EditorInv
       simp only [List.length_append, List.length_take, List.length_tail,
         List.length_singleton] at hc ⊢
       omega)

theorem EditorInv_commit_delta_inner (e0 : Editor) (d : Delta) (h : EditorInv e0) :
    EditorInv (e0.commit_delta_inner d) := by
  have h0 : EditorInv (e0.choose_undo_group).1 := EditorInv_choose_undo_group _ h
  unfold Editor.commit_delta_inner
  dsimp only
  split
  · exact EditorInv_of_undoPair (by rw [undoPair_set_cursor]; rfl) h0
  · exact EditorInv_of_undoPair rfl h0

theorem EditorInv_commit_delta (e : Editor) (h : EditorInv e) :
    EditorInv e.commit_delta := by
  cases hd : e.delta with
  | none =>
    unfold Editor.commit_delta
    rw [hd]
    exact h
  | some d =>
    unfold Editor.commit_delta
    rw [hd]
    exact EditorInv_commit_delta_inner _ d (EditorInv_of_undoPair rfl h)

theorem EditorInv_rpc_epilogue (e : Editor) (h : EditorInv e) :
    EditorInv e.rpc_epilogue := by
  have h1 : undoPair e.rpc_epilogue = undoPair e.commit_delta := by
    unfold Editor.rpc_epilogue
    rw [undoPair_gc_sweep]
    rw [show ∀ x : Editor, ∀ t, undoPair { x with last_edit_type := t } = undoPair x
      from fun _ _ => rfl]
    rw [undoPair_render]
  exact EditorInv_of_undoPair h1 (EditorInv_commit_delta e h)

theorem EditorInv_do_undo (e : Editor) (h : EditorInv e) : EditorInv e.do_undo := by
  obtain ⟨hn, hL⟩ := h
  unfold Editor.do_undo
  split
  · apply EditorInv_of_undoPair (undoPair_update_undos _)
    unfold EditorInv
    constructor
    · show e.cur_undo - 1 ≤ e.live_undos.length
      omega
    · exact hL
  · exact ⟨hn, hL⟩

theorem EditorInv_do_redo (e : Editor) (h : EditorInv e) : EditorInv e.do_redo := by
  obtain ⟨hn, hL⟩ := h
  unfold Editor.do_redo
  split
  · rename_i hlt
    apply EditorInv_of_undoPair (undoPair_update_undos _)
    unfold EditorInv
    constructor
    · show e.cur_undo + 1 ≤ e.live_undos.length
      omega
    · exact hL
  · exact ⟨hn, hL⟩

theorem EditorInv_epilogue_eq {X e' : Editor} {kr kr' : List Char}
    {res r : Option Value}
    (hrpc : (some (X.rpc_epilogue, kr, res) :
        Option (Editor × List Char × Option Value)) = some (e', kr', r))
    (hX : EditorInv X) : EditorInv e' := by
  simp only [Option.some.injEq, Prod.mk.injEq] at hrpc
  obtain ⟨h1, h2, h3⟩ := hrpc
  rw [← h1]
  exact EditorInv_rpc_epilogue _ hX

theorem EditorInv_do_rpc (e : Editor) (cmd : EditCommand) (kr : List Char)
    (fs : String → Option (List Char)) (e' : Editor) (kr' : List Char)
    (r : Option Value) (h : EditorInv e)
    (hrpc : e.do_rpc cmd kr fs = some (e', kr', r)) : EditorInv e' := by
  have h0 : EditorInv { e with this_edit_type := EditType.Other } :=
    EditorInv_of_undoPair rfl h
  cases cmd
  case RenderLines fl ll => exact EditorInv_epilogue_eq hrpc (EditorInv_of_undoPair rfl h0)
  case Key chars flags =>
    exact EditorInv_epilogue_eq hrpc (EditorInv_of_undoPair (undoPair_do_key ..) h0)
  case Insert chars =>
    exact EditorInv_epilogue_eq hrpc (EditorInv_of_undoPair (undoPair_do_insert ..) h0)
  case InsertNewline =>
    exact EditorInv_epilogue_eq hrpc (EditorInv_of_undoPair (undoPair_insert_newline ..) h0)
  case Move motion ms =>
    exact EditorInv_epilogue_eq hrpc (EditorInv_of_undoPair (undoPair_do_move ..) h0)
  case Delete motion =>
    cases motion with
    | PrevChar =>
      exact EditorInv_epilogue_eq hrpc
        (EditorInv_of_undoPair (undoPair_delete_backward _) h0)
    | NextChar =>
      exact EditorInv_epilogue_eq hrpc
        (EditorInv_of_undoPair (undoPair_delete_forward _) h0)
    | StartOfLine =>
      exact EditorInv_epilogue_eq hrpc
        (EditorInv_of_undoPair (undoPair_delete_to_beginning_of_line _) h0)
    | PrevLine => exact Option.noConfusion hrpc
    | NextLine => exact Option.noConfusion hrpc
    | StartOfDocument => exact Option.noConfusion hrpc
    | EndOfLine => exact Option.noConfusion hrpc
    | EndOfDocument => exact Option.noConfusion hrpc
  case ScrollPageUp =>
    exact EditorInv_epilogue_eq hrpc (EditorInv_of_undoPair (undoPair_scroll_page_up ..) h0)
  case PageUpAndModifySelection =>
    exact EditorInv_epilogue_eq hrpc (EditorInv_of_undoPair (undoPair_scroll_page_up ..) h0)
  case ScrollPageDown =>
    exact EditorInv_epilogue_eq hrpc (EditorInv_of_undoPair (undoPair_scroll_page_down ..) h0)
  case PageDownAndModifySelection =>
    exact EditorInv_epilogue_eq hrpc (EditorInv_of_undoPair (undoPair_scroll_page_down ..) h0)
  case Open fp =>
    exact EditorInv_epilogue_eq hrpc (EditorInv_of_undoPair (undoPair_do_open ..) h0)
  case Save fp => exact EditorInv_epilogue_eq hrpc (EditorInv_of_undoPair rfl h0)
  case Scroll a b => exact EditorInv_epilogue_eq hrpc (EditorInv_of_undoPair rfl h0)
  case Yank =>
    exact EditorInv_epilogue_eq hrpc (EditorInv_of_undoPair (undoPair_yank ..) h0)
  case Transpose =>
    exact EditorInv_epilogue_eq hrpc (EditorInv_of_undoPair (undoPair_do_transpose ..) h0)
  case Click a b c d =>
    exact EditorInv_epilogue_eq hrpc (EditorInv_of_undoPair (undoPair_do_click ..) h0)
  case Drag a b c =>
    exact EditorInv_epilogue_eq hrpc (EditorInv_of_undoPair (undoPair_do_drag ..) h0)
  case Undo => exact EditorInv_epilogue_eq hrpc (EditorInv_do_undo _ h0)
  case Redo => exact EditorInv_epilogue_eq hrpc (EditorInv_do_redo _ h0)
  case Cut =>
    exact EditorInv_epilogue_eq hrpc (EditorInv_of_undoPair (undoPair_do_cut ..) h0)
  case Copy =>
    exact EditorInv_epilogue_eq hrpc (EditorInv_of_undoPair (undoPair_do_copy ..) h0)
  case DebugRewrap => exact EditorInv_epilogue_eq hrpc (EditorInv_of_undoPair rfl h0)
  case DebugTestFgSpans => exact EditorInv_epilogue_eq hrpc (EditorInv_of_undoPair rfl h0)

/-! Field-preservation lemmas for set_cursor and the rpc epilogue. -/

theorem set_cursor_text (e : Editor) (o : Nat) (hd : Bool) :
    (e.set_cursor o hd).text = e.text := by
  simp only [Editor.set_cursor, View.scroll_to_cursor]
  split <;> split <;> rfl

theorem set_cursor_delta (e : Editor) (o : Nat) (hd : Bool) :
    (e.set_cursor o hd).delta = e.delta := by
  simp only [Editor.set_cursor, View.scroll_to_cursor]
  split <;> split <;> rfl

theorem set_cursor_this_edit_type (e : Editor) (o : Nat) (hd : Bool) :
    (e.set_cursor o hd).this_edit_type = e.this_edit_type := by
  simp only [Editor.set_cursor, View.scroll_to_cursor]
  split <;> split <;> rfl

theorem set_cursor_sel_end (e : Editor) (o : Nat) (hd : Bool) :
    (e.set_cursor o hd).view.sel_end = o := by
  simp only [Editor.set_cursor, View.scroll_to_cursor]
  split <;> split <;> rfl

theorem set_cursor_sel_start (e : Editor) (o : Nat) (hd : Bool)
    (hty : e.this_edit_type ≠ EditType.Select) :
    (e.set_cursor o hd).view.sel_start = o := by
  simp only [Editor.set_cursor, View.scroll_to_cursor, hty]
  split <;> rfl

theorem commit_delta_none (e : Editor) (h : e.delta = none) :
    e.commit_delta = e := by
  unfold Editor.commit_delta
  rw [h]

theorem text_render (e : Editor) : (e.render).text = e.text := by
  unfold Editor.render
  split <;> rfl

theorem text_gc_sweep (e : Editor) : (e.gc_sweep).text = e.text := by
  unfold Editor.gc_sweep
  split <;> rfl

theorem text_rpc_epilogue (e : Editor) (h : e.delta = none) :
    e.rpc_epilogue.text = e.text := by
  unfold Editor.rpc_epilogue
  rw [commit_delta_none _ h, text_gc_sweep]
  exact text_render e

/-! Helper lemmas about Editor::delete. -/

theorem delete_nonempty_sel (e : Editor) (h : e.delta = none)
    (hne : e.view.sel_start ≠ e.view.sel_end) :
    (e.delete).delta = some (Delta.simple_edit
      (Interval.new_closed_open e.view.sel_min e.view.sel_max) [] (ropeLen e.text)) ∧
    (e.delete).this_edit_type = EditType.Delete ∧
    (e.delete).new_cursor = some e.view.sel_min := by
  have hlt : e.view.sel_min < e.view.sel_max := min_lt_max.mpr hne
  unfold Editor.delete
  rw [if_pos hne, if_pos hlt]
  simp [Editor.add_delta, h]

theorem delete_empty_sel_some (e : Editor) (p : Nat) (h : e.delta = none)
    (hsel : e.view.sel_start = e.view.sel_end)
    (hp : prev_codepoint_offset e.text e.view.sel_end = some p) :
    (e.delete).delta = some (Delta.simple_edit
      (Interval.new_closed_open p e.view.sel_end) [] (ropeLen e.text)) ∧
    (e.delete).this_edit_type = EditType.Delete ∧
    (e.delete).new_cursor = some p := by
  have hmax : e.view.sel_max = e.view.sel_end := by
    unfold View.sel_max; omega
  have hlt : p < e.view.sel_end := prevBoundary_lt _ _ _ hp
  have hcond : ¬ (e.view.sel_start ≠ e.view.sel_end) := by simp [hsel]
  unfold Editor.delete
  rw [if_neg hcond, hp, hmax]
  dsimp only
  rw [if_pos hlt]
  simp [Editor.add_delta, h, hmax]

theorem delete_empty_sel_none (e : Editor) (h : e.delta = none)
    (hsel : e.view.sel_start = e.view.sel_end)
    (hp : prev_codepoint_offset e.text e.view.sel_end = none) :
    e.delete = e := by
  have hmax : e.view.sel_max = e.view.sel_end := by
    unfold View.sel_max; omega
  have hcond : ¬ (e.view.sel_start ≠ e.view.sel_end) := by simp [hsel]
  unfold Editor.delete
  rw [if_neg hcond, hp, hmax]
  dsimp only
  simp

/-! Claim theorems. -/

/-- C3: within one do_rpc at most one delta is staged: the first add_delta
on a clean editor stages Delta::simple_edit and the new cursor; any
further add_delta while a delta is pending returns the editor unchanged,
so the pending delta and pending cursor survive and the edits are never
composed. -/
theorem c3_single_pending_delta (e : Editor) (iv iv2 : Interval)
    (new new2 : List Char) (nc nc2 : Nat) (h : e.delta = none) :
    (e.add_delta iv new nc).delta = some (Delta.simple_edit iv new (ropeLen e.text)) ∧
    (e.add_delta iv new nc).new_cursor = some nc ∧
    (e.add_delta iv new nc).add_delta iv2 new2 nc2 = e.add_delta iv new nc ∧
    (∀ f : Editor, f.delta.isSome = true → f.add_delta iv2 new2 nc2 = f) := by
  refine ⟨?_, ?_, ?_, ?_⟩
  · simp [Editor.add_delta, h]
  · simp [Editor.add_delta, h]
  · simp [Editor.add_delta, h]
  · intro f hf
    simp [Editor.add_delta, hf]

/-- C3 witness at a concrete editor and intervals. -/
theorem c3_single_pending_delta_witness :
    (docEditor ['a'] 0).delta = none ∧
    ((docEditor ['a'] 0).add_delta (Interval.new_closed_open 0 1) ['b'] 1).delta =
      some (Delta.simple_edit (Interval.new_closed_open 0 1) ['b']
        (ropeLen (docEditor ['a'] 0).text)) :=
  ⟨rfl, (c3_single_pending_delta (docEditor ['a'] 0) (Interval.new_closed_open 0 1)
    (Interval.new_closed_open 0 0) ['b'] [] 1 0 rfl).1⟩

/-- C9: when the filesystem oracle reports a failed open or read, do_open
returns the editor completely unchanged. -/
theorem c9_open_failure_no_change (e : Editor) (file_path : String)
    (fs : String → Option (List Char)) (h : fs file_path = none) :
    e.do_open file_path fs = e := by
  unfold Editor.do_open
  rw [h]

/-- C9 witness: a concrete failing open leaves the fresh editor as it
was. -/
theorem c9_open_failure_no_change_witness :
    noFile ("f") = none ∧
    (Editor.new ("0")).do_open ("f") noFile = Editor.new ("0") :=
  ⟨rfl, c9_open_failure_no_change (Editor.new ("0")) ("f") noFile rfl⟩

/-- C2: do_undo with cur_undo positive decrements cur_undo, inserts
live_undos[cur_undo] into undos, pushes the updated set into the engine
and refreshes the text from the new head; do_redo symmetrically removes
live_undos[cur_undo] and increments; each is the identity when its guard
fails. -/
theorem c2_undo_redo_flush (e : Editor) :
    (0 < e.cur_undo →
      e.do_undo.cur_undo = e.cur_undo - 1 ∧
      e.do_undo.undos = setInsert (e.live_undos.getD (e.cur_undo - 1) 0) e.undos ∧
      e.do_undo.live_undos = e.live_undos ∧
      e.do_undo.engine =
        e.engine.undo (setInsert (e.live_undos.getD (e.cur_undo - 1) 0) e.undos) ∧
      e.do_undo.text =
        (e.engine.undo (setInsert (e.live_undos.getD (e.cur_undo - 1) 0) e.undos)).head) ∧
    (e.cur_undo = 0 → e.do_undo = e) ∧
    (e.cur_undo < e.live_undos.length →
      e.do_redo.cur_undo = e.cur_undo + 1 ∧
      e.do_redo.undos = setRemove (e.live_undos.getD e.cur_undo 0) e.undos ∧
      e.do_redo.live_undos = e.live_undos ∧
      e.do_redo.engine =
        e.engine.undo (setRemove (e.live_undos.getD e.cur_undo 0) e.undos) ∧
      e.do_redo.text =
        (e.engine.undo (setRemove (e.live_undos.getD e.cur_undo 0) e.undos)).head) ∧
    (e.live_undos.length ≤ e.cur_undo → e.do_redo = e) := by
  refine ⟨?_, ?_, ?_, ?_⟩
  · intro h
    simp [Editor.do_undo, h, Editor.update_undos, Editor.update_after_revision,
      Engine.get_head, Engine.undo, View.before_edit, View.after_edit]
  · intro h
    simp [Editor.do_undo, h]
  · intro h
    simp [Editor.do_redo, h, Editor.update_undos, Editor.update_after_revision,
      Engine.get_head, Engine.undo, View.before_edit, View.after_edit]
  · intro h
    have hnot : ¬ e.cur_undo < e.live_undos.length := by omega
    simp [Editor.do_redo, hnot]

/-- C2 witness at a concrete editor with one applied live group. -/
theorem c2_undo_redo_flush_witness :
    0 < undoWitnessEditor.cur_undo ∧
    undoWitnessEditor.do_undo.cur_undo = undoWitnessEditor.cur_undo - 1 ∧
    undoWitnessEditor.do_undo.undos =
      setInsert (undoWitnessEditor.live_undos.getD (undoWitnessEditor.cur_undo - 1) 0)
        undoWitnessEditor.undos :=
  ⟨by decide, ((c2_undo_redo_flush undoWitnessEditor).1 (by decide)).1,
    ((c2_undo_redo_flush undoWitnessEditor).1 (by decide)).2.1⟩

/-! More helper lemmas for the clipboard and paragraph deletion claims. -/

theorem do_cut_empty (e : Editor) (hmin : e.view.sel_min = e.view.sel_max) :
    e.do_cut = (e, Value.null) := by
  unfold Editor.do_cut
  dsimp only
  rw [if_neg (by simp [hmin])]

theorem do_cut_nonempty (e : Editor) (h : e.delta = none)
    (hne : e.view.sel_min ≠ e.view.sel_max) :
    (e.do_cut).2 = Value.vstr (slice_to_string e.text e.view.sel_min e.view.sel_max) ∧
    (e.do_cut).1.delta = some (Delta.simple_edit
      (Interval.new_closed_open e.view.sel_min e.view.sel_max) [] (ropeLen e.text)) ∧
    (e.do_cut).1.new_cursor = some e.view.sel_min ∧
    (e.do_cut).1.text = e.text := by
  unfold Editor.do_cut
  dsimp only
  rw [if_pos hne]
  simp [Editor.add_delta, h]

theorem cursor_end_offset_at_end (e : Editor)
    (hmax : e.view.sel_max = ropeLen e.text) :
    e.cursor_end_offset = e.view.sel_max := by
  unfold Editor.cursor_end_offset
  dsimp only
  rw [hmax]
  unfold cursorNextLine
  rw [if_pos (le_refl _)]

theorem run_rpcs_inv (inputs : List RpcInput) :
    ∀ e e', EditorInv e → run_rpcs e inputs = some e' → EditorInv e' := by
  induction inputs with
  | nil =>
    intro e e' h hrun
    unfold run_rpcs at hrun
    injection hrun with h1
    subst h1
    exact h
  | cons i is ih =>
    intro e e' h hrun
    unfold run_rpcs at hrun
    cases hrpc : e.do_rpc i.cmd i.kill_ring i.fs with
    | none => rw [hrpc] at hrun; cases hrun
    | some p =>
      rw [hrpc] at hrun
      obtain ⟨e1, kr1, r1⟩ := p
      exact ih e1 e' (EditorInv_do_rpc e i.cmd i.kill_ring i.fs e1 kr1 r1 h hrpc) hrun

/-- C4: in every editor state reachable from Editor::new by do_rpc calls,
cur_undo is at most the number of live undo groups, which is at most
MAX_UNDOS, and MAX_UNDOS is 20. -/
theorem c4_undo_bounds (tab : String) (inputs : List RpcInput) (e : Editor)
    (h : run_rpcs (Editor.new tab) inputs = some e) :
    e.cur_undo ≤ e.live_undos.length ∧ e.live_undos.length ≤ MAX_UNDOS ∧
    MAX_UNDOS = 20 := by
  have hInv : EditorInv (Editor.new tab) := ⟨Nat.le_refl 0, Nat.zero_le _⟩
  obtain ⟨h1, h2⟩ := run_rpcs_inv inputs (Editor.new tab) e hInv h
  exact ⟨h1, h2, rfl⟩

/-- Inputs of the C4 witness run: one keystroke then an undo. -/
def c4Inputs : List RpcInput :=
  [⟨EditCommand.Key ['a'] 0, [], noFile⟩, ⟨EditCommand.Undo, [], noFile⟩]

/-- Editor reached by the C4 witness run. -/
def c4Editor : Editor :=
  (run_rpcs (Editor.new ("0")) c4Inputs).getD (Editor.new ("0"))

/-- C4 witness: the bounds hold on a concrete reachable state. -/
theorem c4_undo_bounds_witness :
    run_rpcs (Editor.new ("0")) c4Inputs = some c4Editor ∧
    c4Editor.cur_undo ≤ c4Editor.live_undos.length ∧
    c4Editor.live_undos.length ≤ MAX_UNDOS ∧ MAX_UNDOS = 20 :=
  ⟨rfl, c4_undo_bounds ("0") c4Inputs c4Editor rfl⟩

/-- C1 counterexample: running key a, key b, key c, undo from a fresh
editor leaves text "ab" with cur_undo 2 and three live undo groups --
not empty text with one group -- because do_key's literal-insert arm
leaves this_edit_type at Other, so consecutive keystrokes never satisfy
the coalescing condition in commit_delta. -/
theorem c1_key_sequence_counterexample :
    (run_cmds (Editor.new ("0")) [] noFile keyUndoCmds).map undoObs =
      some (['a', 'b'], 2, 3) ∧
    ¬ (run_cmds (Editor.new ("0")) [] noFile keyUndoCmds).map undoObs =
      some (([] : List Char), 0, 1) := by
  constructor
  · decide
  · decide

/-- C1 amended: the coalescing scenario holds for the insert command
(whose handler do_insert sets InsertChars): insert a, insert b, insert c,
undo yields empty text, cur_undo 0 and a single live undo group. -/
theorem c1_insert_coalescing_amended :
    (run_cmds (Editor.new ("0")) [] noFile insertUndoCmds).map undoObs =
      some (([] : List Char), 0, 1) := by
  decide

/-- C5: a successful do_open replaces the engine with a fresh one over
the file content (empty history), mirrors its head into text, resets the
view's break cache and sets the cursor hard to offset 0, while leaving
undo_group_id, live_undos, cur_undo, undos and gc_undos exactly as they
were; consequently an undo issued afterwards, when cur_undo is positive,
submits an undo-group id of the discarded history to the fresh engine. -/
theorem c5_open_frame (e : Editor) (file_path : String)
    (fs : String → Option (List Char)) (s : List Char)
    (hfs : fs file_path = some s) (hty : e.this_edit_type = EditType.Other) :
    (e.do_open file_path fs).engine = Engine.new s ∧
    (e.do_open file_path fs).engine.history = [] ∧
    (e.do_open file_path fs).text = s ∧
    (e.do_open file_path fs).view.breaks = [] ∧
    (e.do_open file_path fs).view.sel_start = 0 ∧
    (e.do_open file_path fs).view.sel_end = 0 ∧
    (e.do_open file_path fs).undo_group_id = e.undo_group_id ∧
    (e.do_open file_path fs).live_undos = e.live_undos ∧
    (e.do_open file_path fs).cur_undo = e.cur_undo ∧
    (e.do_open file_path fs).undos = e.undos ∧
    (e.do_open file_path fs).gc_undos = e.gc_undos ∧
    (0 < e.cur_undo →
      ((e.do_open file_path fs).do_undo).engine.history = [] ∧
      ((e.do_open file_path fs).do_undo).engine.undone =
        setInsert (e.live_undos.getD (e.cur_undo - 1) 0) e.undos) := by
  have hopen : e.do_open file_path fs = e.reset_contents s := by
    unfold Editor.do_open
    rw [hfs]
  have hrec : e.reset_contents s =
      { e with
        engine := Engine.new s
        text := (Engine.new s).get_head
        view := { e.view with breaks := [], sel_start := 0, sel_end := 0 }
        dirty := true
        col := (offsetToLineCol (Engine.new s).get_head 0).2
        scroll_to := some 0 } := by
    unfold Editor.reset_contents Editor.set_cursor View.reset_breaks View.scroll_to_cursor
    simp [hty]
  rw [hopen, hrec]
  refine ⟨rfl, rfl, rfl, rfl, rfl, rfl, rfl, rfl, rfl, rfl, rfl, ?_⟩
  intro hcu
  constructor
  · simp [Editor.do_undo, hcu, Editor.update_undos, Editor.update_after_revision,
      Engine.undo, Engine.new]
  · simp [Editor.do_undo, hcu, Editor.update_undos, Editor.update_after_revision,
      Engine.undo]

/-- Oracle of the C5 witness: every open succeeds with content "xy". -/
def c5Fs : String → Option (List Char) := fun _ => some ['x', 'y']

/-- C5 witness at a concrete editor with one applied live group. -/
theorem c5_open_frame_witness :
    c5Fs ("f") = some ['x', 'y'] ∧
    undoWitnessEditor.this_edit_type = EditType.Other ∧
    (undoWitnessEditor.do_open ("f") c5Fs).text = ['x', 'y'] ∧
    (undoWitnessEditor.do_open ("f") c5Fs).cur_undo = undoWitnessEditor.cur_undo ∧
    ((undoWitnessEditor.do_open ("f") c5Fs).do_undo).engine.undone =
      setInsert (undoWitnessEditor.live_undos.getD (undoWitnessEditor.cur_undo - 1) 0)
        undoWitnessEditor.undos := by
  obtain ⟨h1, h2, h3, h4, h5, h6, h7, h8, h9, h10, h11, h12⟩ :=
    c5_open_frame undoWitnessEditor ("f") c5Fs ['x', 'y'] rfl rfl
  exact ⟨rfl, rfl, h3, h9, (h12 (by decide)).2⟩

/-- Editor of the forward-delete scenario: document "ab", empty selection
at offset 0. -/
def fwdEditor : Editor := docEditor ['a', 'b'] 0

/-- C7 counterexample: in delete_forward the internal set_cursor
collapses the selection, so after the one-grapheme move the selection is
empty, not non-empty as claimed; the deletion that follows is the
empty-selection previous-codepoint branch. -/
theorem c7_forward_delete_counterexample :
    next_grapheme_offset fwdEditor.text fwdEditor.view.sel_end = some 1 ∧
    fwdEditor.delete_forward = (fwdEditor.set_cursor 1 true).delete ∧
    (fwdEditor.set_cursor 1 true).view.sel_start =
      (fwdEditor.set_cursor 1 true).view.sel_end ∧
    ((fwdEditor.set_cursor 1 true).delete).delta =
      some (Delta.simple_edit (Interval.new_closed_open 0 1) [] 2) := by
  refine ⟨by decide, by decide, by decide, by decide⟩

/-- C7 amended: with a non-empty selection the staged delta deletes
exactly sel_min to sel_max; with an empty selection backspace deletes the
previous codepoint and is a no-op at offset 0; forward-delete at the end
of the document is a no-op, and otherwise moves the cursor one grapheme
forward -- collapsing the selection, which stays empty -- and then
deletes the previous codepoint before the new cursor (which is the moved
grapheme whenever it is a single codepoint). -/
theorem c7_deletion_amended (e : Editor) (h : e.delta = none)
    (hty : e.this_edit_type ≠ EditType.Select) :
    (e.view.sel_start ≠ e.view.sel_end →
      (e.delete).delta = some (Delta.simple_edit
        (Interval.new_closed_open e.view.sel_min e.view.sel_max) [] (ropeLen e.text)) ∧
      (e.delete).this_edit_type = EditType.Delete) ∧
    (e.view.sel_start = e.view.sel_end →
      (∀ p, prev_codepoint_offset e.text e.view.sel_end = some p →
        (e.delete).delta = some (Delta.simple_edit
          (Interval.new_closed_open p e.view.sel_end) [] (ropeLen e.text))) ∧
      (e.view.sel_end = 0 → e.delete = e) ∧
      (next_grapheme_offset e.text e.view.sel_end = none → e.delete_forward = e) ∧
      (∀ ng, next_grapheme_offset e.text e.view.sel_end = some ng →
        e.delete_forward = (e.set_cursor ng true).delete ∧
        (e.set_cursor ng true).view.sel_start = (e.set_cursor ng true).view.sel_end ∧
        (∀ p, prev_codepoint_offset e.text ng = some p →
          (e.delete_forward).delta = some (Delta.simple_edit
            (Interval.new_closed_open p ng) [] (ropeLen e.text))))) := by
  constructor
  · intro hne
    exact ⟨(delete_nonempty_sel e h hne).1, (delete_nonempty_sel e h hne).2.1⟩
  · intro hsel
    refine ⟨?_, ?_, ?_, ?_⟩
    · intro p hp
      exact (delete_empty_sel_some e p h hsel hp).1
    · intro h0
      apply delete_empty_sel_none e h hsel
      rw [h0]
      exact prev_codepoint_offset_zero _
    · intro hng
      unfold Editor.delete_forward
      rw [if_pos hsel, hng]
    · intro ng hng
      have hfwd : e.delete_forward = (e.set_cursor ng true).delete := by
        unfold Editor.delete_forward
        rw [if_pos hsel, hng]
      have hcol : (e.set_cursor ng true).view.sel_start =
          (e.set_cursor ng true).view.sel_end := by
        rw [set_cursor_sel_start e ng true hty, set_cursor_sel_end]
      refine ⟨hfwd, hcol, ?_⟩
      intro p hp
      have hm := (delete_empty_sel_some (e.set_cursor ng true) p
        (by rw [set_cursor_delta]; exact h) hcol
        (by rw [set_cursor_text, set_cursor_sel_end]; exact hp)).1
      rw [set_cursor_sel_end, set_cursor_text] at hm
      rw [hfwd]
      exact hm

/-- C7 amended witness: backspace on "ab" at offset 2 stages the
deletion of the previous codepoint, and forward-delete at offset 0
stages the deletion of the first codepoint. -/
theorem c7_deletion_amended_witness :
    fwdEditor.delta = none ∧
    fwdEditor.this_edit_type ≠ EditType.Select ∧
    fwdEditor.view.sel_start = fwdEditor.view.sel_end ∧
    next_grapheme_offset fwdEditor.text fwdEditor.view.sel_end = some 1 ∧
    prev_codepoint_offset fwdEditor.text 1 = some 0 ∧
    (fwdEditor.delete_forward).delta =
      some (Delta.simple_edit (Interval.new_closed_open 0 1) []
        (ropeLen fwdEditor.text)) :=
  ⟨rfl, by decide, rfl, by decide, by decide,
    ((((c7_deletion_amended fwdEditor rfl (by decide)).2 rfl).2.2.2 1
      (by decide)).2.2 0 (by decide))⟩

/-- C8: cut with a non-empty selection stages exactly the deletion of
sel_min..sel_max and answers with the selected text of the pre-edit
rope; with an empty selection it answers null, stages nothing, and the
whole RPC leaves the text unchanged. -/
theorem c8_cut (e : Editor) (kr : List Char) (fs : String → Option (List Char))
    (h : e.delta = none) :
    (e.view.sel_min ≠ e.view.sel_max →
      (e.do_cut).2 = Value.vstr (slice_to_string e.text e.view.sel_min e.view.sel_max) ∧
      (e.do_cut).1.delta = some (Delta.simple_edit
        (Interval.new_closed_open e.view.sel_min e.view.sel_max) [] (ropeLen e.text)) ∧
      (e.do_cut).1.new_cursor = some e.view.sel_min ∧
      rpcResultOf (e.do_rpc EditCommand.Cut kr fs) =
        some (some (Value.vstr (slice_to_string e.text e.view.sel_min e.view.sel_max)))) ∧
    (e.view.sel_min = e.view.sel_max →
      e.do_cut = (e, Value.null) ∧
      rpcResultOf (e.do_rpc EditCommand.Cut kr fs) = some (some Value.null) ∧
      rpcTextOf (e.do_rpc EditCommand.Cut kr fs) = some e.text) := by
  have hrpc : e.do_rpc EditCommand.Cut kr fs =
      some (((({ e with this_edit_type := EditType.Other }).do_cut).1).rpc_epilogue, kr,
        some ((({ e with this_edit_type := EditType.Other }).do_cut).2)) := rfl
  constructor
  · intro hne
    have hcE := do_cut_nonempty e h hne
    have hc0 := do_cut_nonempty { e with this_edit_type := EditType.Other } h hne
    refine ⟨hcE.1, hcE.2.1, hcE.2.2.1, ?_⟩
    rw [hrpc]
    simp [rpcResultOf, hc0.1]
  · intro hmin
    have hc0 := do_cut_empty { e with this_edit_type := EditType.Other } hmin
    refine ⟨do_cut_empty e hmin, ?_, ?_⟩
    · rw [hrpc]
      simp [rpcResultOf, hc0]
    · rw [hrpc]
      simp only [rpcTextOf, hc0]
      rw [text_rpc_epilogue { e with this_edit_type := EditType.Other } h]

/-- C8 witness: cut on "abc" with selection 1..3 answers "bc" and stages
its deletion; cut on the empty selection of a fresh editor answers null
and leaves the text alone. -/
theorem c8_cut_witness :
    (docEditor ['a', 'b', 'c'] 1).delta = none ∧
    ({ docEditor ['a', 'b', 'c'] 1 with
        view := { (docEditor ['a', 'b', 'c'] 1).view with sel_end := 3 } }.do_cut).2 =
      Value.vstr ['b', 'c'] ∧
    rpcResultOf ((Editor.new ("0")).do_rpc EditCommand.Cut [] noFile) =
      some (some Value.null) := by
  have hne := (c8_cut { docEditor ['a', 'b', 'c'] 1 with
      view := { (docEditor ['a', 'b', 'c'] 1).view with sel_end := 3 } } [] noFile rfl).1
    (by decide)
  have hmt := ((c8_cut (Editor.new ("0")) [] noFile rfl).2 rfl).2.1
  exact ⟨rfl, by rw [hne.1]; decide, hmt⟩

/-- C10: delete_to_end_of_paragraph replaces the kill ring with exactly
what it deleted, independent of the kill ring's previous contents; with
the cursor at the end of the document there is nothing to delete and the
kill ring becomes the empty rope while the editor is untouched. -/
theorem c10_kill_ring_overwrite (f e : Editor) (kr kr2 : List Char)
    (hs : e.view.sel_start = ropeLen e.text)
    (he : e.view.sel_end = ropeLen e.text) :
    (f.delete_to_end_of_paragraph kr).2 = (f.delete_to_end_of_paragraph kr2).2 ∧
    (f.view.sel_max ≠ f.cursor_end_offset →
      (f.delete_to_end_of_paragraph kr).2 =
        slice_to_string f.text f.view.sel_max f.cursor_end_offset) ∧
    e.delete_to_end_of_paragraph kr = (e, []) := by
  have hmax : e.view.sel_max = ropeLen e.text := by
    unfold View.sel_max
    omega
  have hceo : e.cursor_end_offset = e.view.sel_max := cursor_end_offset_at_end e hmax
  have hng : next_grapheme_offset e.text e.view.sel_end = none := by
    rw [he]
    exact next_grapheme_offset_ropeLen _
  refine ⟨rfl, ?_, ?_⟩
  · intro hne
    unfold Editor.delete_to_end_of_paragraph
    dsimp only
    rw [if_pos hne]
  · unfold Editor.delete_to_end_of_paragraph
    dsimp only
    rw [if_neg (by simp [hceo]), hng]

/-- C10 witness: on "ab" with the cursor at the end the kill ring is
replaced by the empty rope whatever it held; on "ab" with the cursor at
0 it is replaced by the deleted line "ab". -/
theorem c10_kill_ring_overwrite_witness :
    (docEditor ['a', 'b'] 2).view.sel_start = ropeLen (docEditor ['a', 'b'] 2).text ∧
    (docEditor ['a', 'b'] 2).view.sel_end = ropeLen (docEditor ['a', 'b'] 2).text ∧
    ((docEditor ['a', 'b'] 0).delete_to_end_of_paragraph ['z']).2 =
      ((docEditor ['a', 'b'] 0).delete_to_end_of_paragraph []).2 ∧
    (docEditor ['a', 'b'] 2).delete_to_end_of_paragraph ['z'] =
      (docEditor ['a', 'b'] 2, []) := by
  have h := c10_kill_ring_overwrite (docEditor ['a', 'b'] 0) (docEditor ['a', 'b'] 2)
    ['z'] [] (by decide) (by decide)
  exact ⟨by decide, by decide, h.1, h.2.2⟩

/-- C6: do_transpose stages exactly the delta described by the spec --
interval start..end with content slice(middle, end) + slice(start,
middle), cursor at end, where the graphemes on either side of sel_end are
swapped and, at the end of the document, the two preceding graphemes are
swapped instead -- and on document "ab" with the cursor at offset 2 the
full transpose RPC produces "ba" with the cursor still at 2. -/
theorem c6_transpose (e : Editor) (h : e.delta = none) :
    (e.do_transpose).delta = some (transposeSpec e.text e.view.sel_end).1 ∧
    (e.do_transpose).new_cursor = some (transposeSpec e.text e.view.sel_end).2 ∧
    rpcTextOf ((docEditor ['a', 'b'] 2).do_rpc EditCommand.Transpose [] noFile) =
      some ['b', 'a'] ∧
    (rpcEditorOf ((docEditor ['a', 'b'] 2).do_rpc EditCommand.Transpose [] noFile)).map
      editorSel = some (2, 2) := by
  refine ⟨?_, ?_, by decide, by decide⟩
  all_goals
    unfold Editor.do_transpose transposeSpec
    cases hn : next_grapheme_offset e.text e.view.sel_end with
    | some nxt =>
      simp [hn, Editor.add_delta, h, Delta.simple_edit, Interval.new_closed_open]
    | none =>
      cases hp : prev_grapheme_offset e.text e.view.sel_end with
      | some m =>
        simp [hn, hp, Editor.add_delta, h, Delta.simple_edit, Interval.new_closed_open]
      | none =>
        simp [hn, hp, Editor.add_delta, h, Delta.simple_edit, Interval.new_closed_open]

/-- C6 witness: the staged transpose delta agrees with the spec's
formula on the concrete end-of-document scenario. -/
theorem c6_transpose_witness :
    (docEditor ['a', 'b'] 2).delta = none ∧
    ((docEditor ['a', 'b'] 2).do_transpose).delta =
      some (transposeSpec (docEditor ['a', 'b'] 2).text
        (docEditor ['a', 'b'] 2).view.sel_end).1 :=
  ⟨rfl, (c6_transpose (docEditor ['a', 'b'] 2) rfl).1⟩

end XiCore
